import Mathlib

/-!
Verification development for the Domestika downloader core
(manifest cache, progress ledger, retry controller, download scheduler,
post-processing hookup).  The TypeScript sources are shallowly embedded:
pure logic becomes Lean functions, filesystem and subprocess effects become
explicit state / oracle parameters, and fallible code returns `Except`.
-/

namespace Domestika

/-! ## JavaScript string / number primitives used by the sources -/

/-- JS `a || b` for `string | null | undefined` values: `null`, `undefined`
and the empty string are falsy. -/
def jsOrStr (a : Option String) (b : String) : String :=
  match a with
  | some s => if s = "" then b else s
  | none => b

/-- JS template-literal interpolation of a `string | null` value:
`null` renders as the text "null". -/
def jsStrInterp (a : Option String) : String :=
  match a with
  | some s => s
  | none => "null"

/-- JS numbers as used here: an integer or `NaN` (from a failed `parseInt`). -/
abbrev JsNum := Option Int

/-- JS template-literal interpolation of a number; `NaN` renders as "NaN". -/
def jsNumToString (n : JsNum) : String :=
  match n with
  | some v => toString v
  | none => "NaN"

/-- `Number.parseInt(s, 10)` restricted to the shapes that occur in the CSV
fields: optional sign followed by leading decimal digits; `none` models `NaN`. -/
def parseIntJs (s : String) : JsNum :=
  let cs := s.toList.dropWhile Char.isWhitespace
  let (neg, rest) :=
    match cs with
    | '-' :: r => (true, r)
    | '+' :: r => (false, r)
    | r => (false, r)
  let digits := rest.takeWhile Char.isDigit
  if digits.isEmpty then none
  else
    let v : Int := Int.ofNat ((String.mk digits).toNat!)
    some (if neg then -v else v)

/-- `String.prototype.toLowerCase()` (character-wise, as `String.toLower`
does; written over the character list so that it evaluates by kernel
reduction). -/
def toLowerJs (s : String) : String :=
  String.mk (s.toList.map Char.toLower)

/-- `String.prototype.startsWith(pre)` (written over character lists so that
it evaluates by kernel reduction). -/
def startsWithJs (s pre : String) : Bool :=
  pre.toList.isPrefixOf s.toList

/-- `String.prototype.endsWith(suf)` (written over character lists so that
it evaluates by kernel reduction). -/
def endsWithJs (s suf : String) : Bool :=
  suf.toList.reverse.isPrefixOf s.toList.reverse

/-- `String.prototype.trimEnd()`. -/
def trimEndJs (s : String) : String :=
  String.mk ((s.toList.reverse.dropWhile Char.isWhitespace).reverse)

/-- `path.extname` (Node): the part of the name from the last dot on;
empty when there is no dot or the only dot is the leading character. -/
def extname (s : String) : String :=
  let cs := s.toList
  let dots := (cs.enum.filter (fun p => p.2 = '.')).map (fun p => p.1)
  match dots.getLast? with
  | none => ""
  | some 0 => ""
  | some i => String.mk (cs.drop i)

/-! ## URL normalization (`normalizeDomestikaUrl`, utils/url.ts)

The source matches the regex `/domestika\.org\/.*?\/courses\/(\d+)-([-\w]+)/`
against the URL.  The leftmost match of that regex exists exactly when the
first occurrence of the literal "domestika.org/" is followed, somewhere in
the remaining suffix, by an occurrence of `/courses/` + digits + `-` +
word-or-dash characters; the lazy `.*?` selects the first such occurrence in
the suffix, `\d+` captures the maximal digit run and `[-\w]+` the maximal
word-or-dash run. -/

structure NormalizedUrl where
  url : String
  courseTitle : Option String
deriving DecidableEq, Repr

/-- Characters matched by the JS regex class `\w` (ASCII). -/
def isWordChar (c : Char) : Bool :=
  c.isAlphanum || c = '_'

/-- Suffix of the text just after the first occurrence of `pat`. -/
def findLiteralSuffix (pat : List Char) : List Char → Option (List Char)
  | [] => if pat.isEmpty then some [] else none
  | c :: rest =>
    if pat.isPrefixOf (c :: rest) then some ((c :: rest).drop pat.length)
    else findLiteralSuffix pat rest

/-- Try to match `/courses/(\d+)-([-\w]+)` at the head of the text,
returning the two capture groups. -/
def matchCoursesAt (s : List Char) : Option (String × String) :=
  if ("/courses/".toList).isPrefixOf s then
    let rest := s.drop 9
    let digits := rest.takeWhile Char.isDigit
    if digits.isEmpty then none
    else
      match rest.drop digits.length with
      | '-' :: rest2 =>
        let slug := rest2.takeWhile (fun c => isWordChar c || c = '-')
        if slug.isEmpty then none else some (String.mk digits, String.mk slug)
      | _ => none
  else none

/-- First occurrence of `/courses/(\d+)-([-\w]+)` in the text. -/
def findCourses : List Char → Option (String × String)
  | [] => none
  | c :: rest =>
    match matchCoursesAt (c :: rest) with
    | some r => some r
    | none => findCourses rest

/-- `word.charAt(0).toUpperCase() + word.slice(1)` (ASCII). -/
def capitalizeJs (w : String) : String :=
  match w.toList with
  | [] => ""
  | c :: cs => String.mk (c.toUpper :: cs)

/-- Clean the captured slug: hyphens to spaces, capitalize each word. -/
def cleanCourseTitle (slug : String) : String :=
  String.intercalate " " ((slug.splitOn "-").map capitalizeJs)

/-- `normalizeDomestikaUrl` (utils/url.ts): canonicalize any course-page or
unit-page URL to `https://www.domestika.org/es/courses/<id>/course`. -/
def normalizeDomestikaUrl (url : String) : NormalizedUrl :=
  match findLiteralSuffix ("domestika.org/".toList) url.toList with
  | none => ⟨url, none⟩
  | some suffix =>
    match findCourses suffix with
    | none => ⟨url, none⟩
    | some (digits, slug) =>
      ⟨"https://www.domestika.org/es/courses/" ++ digits ++ "/course",
        some (cleanCourseTitle slug)⟩

/-- `getVideoId` (csv/progress.ts): the composite VideoIdentity key. -/
def getVideoId (courseUrl : String) (unitNumber videoIndex : JsNum) : String :=
  (normalizeDomestikaUrl courseUrl).url ++ "|" ++ jsNumToString unitNumber
    ++ "|" ++ jsNumToString videoIndex

/-- The legacy course-level wildcard identity `<normalized url>|*|*`. -/
def wildcardVideoId (courseUrl : String) : String :=
  (normalizeDomestikaUrl courseUrl).url ++ "|*|*"

/-! ## Progress ledger: parsing (`loadProgress`, csv/progress.ts)

A parsed CSV record is an association list of column name to cell text; a
missing or empty cell is falsy in the source, so lookup defaults to "". -/

abbrev CsvRow := List (String × String)

/-- Read one column, "" when absent (JS `undefined` is falsy like ""). -/
def rowGet (row : CsvRow) (k : String) : String :=
  match row with
  | [] => ""
  | (k', v) :: rest => if k' = k then v else rowGet rest k

/-- JS `row.a || row.b || ...`: the first truthy (non-empty) alternative. -/
def rowField (row : CsvRow) : List String → String
  | [] => ""
  | k :: ks =>
    let v := rowGet row k
    if v = "" then rowField row ks else v

/-- The completed identities contributed by one parsed ledger row:
a video-level `completed` row yields its VideoIdentity, a legacy
course-level `completed` row (no unit/video columns) yields the wildcard. -/
def rowCompletedIds (row : CsvRow) : List String :=
  let url := rowField row ["url", "URL", "course_url", "courseUrl"]
  let status := rowField row ["status", "Status"]
  let unitNumber := rowField row ["unitNumber", "unit_number"]
  let videoIndex := rowField row ["videoIndex", "video_index"]
  if url ≠ "" && unitNumber ≠ "" && videoIndex ≠ "" && toLowerJs status = "completed" then
    [getVideoId (normalizeDomestikaUrl url).url (parseIntJs unitNumber) (parseIntJs videoIndex)]
  else if url ≠ "" && toLowerJs status = "completed" && unitNumber = "" && videoIndex = "" then
    [wildcardVideoId url]
  else []

/-- `loadProgress` (csv/progress.ts): the set of completed VideoIdentities
read from the parsed ledger records (membership is what matters). -/
def loadProgress (records : List CsvRow) : List String :=
  records.flatMap rowCompletedIds

/-! ## Filesystem model and `checkVideoFileExists` (csv/progress.ts)

Directories are keyed by the path components the source joins:
download root, course folder, section, unit title.  A directory maps to its
entries (name plus the `stat` data the source inspects) or is absent. -/

structure FileStat where
  isFile : Bool
  size : Nat
deriving DecidableEq, Repr

structure FSEntry where
  name : String
  stat : FileStat
deriving DecidableEq, Repr

structure DirKey where
  base : String
  course : String
  sectionLabel : String
  unitTitle : String
deriving DecidableEq, Repr

/-- The filesystem: a listing per directory, `none` when the directory is
absent. -/
def FS := DirKey → Option (List FSEntry)

/-- Rendering of a directory key as the joined path (payload only). -/
def dirKeyPath (d : DirKey) : String :=
  d.base ++ "/" ++ d.course ++ "/" ++ d.sectionLabel ++ "/" ++ d.unitTitle

/-- The target directory of a video:
`path.join(baseDownloadPath, courseTitle || 'Unknown Course', section, unitTitle)`. -/
def mkVideoDirKey (downloadPath : String) (courseTitle : Option String)
    (sectionLabel unitTitle : String) : DirKey :=
  ⟨downloadPath, jsOrStr courseTitle "Unknown Course", sectionLabel, unitTitle⟩

/-- The deterministic file-name stem
`` `${courseTitle} - U${unitNumber} - ${videoIndex}_${videoTitle.trimEnd()}` ``. -/
def mkFileStem (courseTitle : Option String) (unitNumber videoIndex : Int)
    (videoTitle : String) : String :=
  jsStrInterp courseTitle ++ " - U" ++ toString unitNumber ++ " - "
    ++ toString videoIndex ++ "_" ++ trimEndJs videoTitle

def possibleExtensions : List String := [".mp4", ".m3u8", ".ts", ".mkv", ".avi"]

/-- The per-file test of `checkVideoFileExists`: name starts with the stem,
video extension (or none), regular file, non-empty. -/
def videoFileMatch (stem : String) (f : FSEntry) : Bool :=
  startsWithJs f.name stem
    && (possibleExtensions.contains (toLowerJs (extname f.name))
        || toLowerJs (extname f.name) = "")
    && f.stat.isFile && f.stat.size > 0

/-- `checkVideoFileExists` (csv/progress.ts): probe the expected target
directory for an existing non-empty media file named by the stem. -/
def checkVideoFileExists (fs : FS) (downloadPath : String) (courseTitle : Option String)
    (unitTitle : String) (unitNumber videoIndex : Int) (videoTitle sectionLabel : String) :
    Option String :=
  let dir := mkVideoDirKey downloadPath courseTitle sectionLabel unitTitle
  match fs dir with
  | none => none
  | some files =>
    let stem := mkFileStem courseTitle unitNumber videoIndex videoTitle
    (files.find? (videoFileMatch stem)).map (fun f => dirKeyPath dir ++ "/" ++ f.name)

/-- The optional probe fields of `isVideoCompleted`; the source requires all
four to be supplied (`!== undefined`) before probing the filesystem, and the
call sites supply all or none of them. -/
structure ProbeFields where
  courseTitle : Option String
  unitTitle : String
  videoTitle : String
  sectionLabel : String
deriving DecidableEq, Repr

/-- `isVideoCompleted` (csv/progress.ts): ledger entry, course-level
wildcard, or filesystem probe. -/
def isVideoCompleted (fs : FS) (downloadPath : String) (courseUrl : String)
    (unitNumber videoIndex : Int) (completedVideos : List String)
    (probe : Option ProbeFields) : Bool :=
  let videoId := getVideoId courseUrl (some unitNumber) (some videoIndex)
  if completedVideos.contains videoId then true
  else if completedVideos.contains (wildcardVideoId courseUrl) then true
  else
    match probe with
    | none => false
    | some p =>
      (checkVideoFileExists fs downloadPath p.courseTitle p.unitTitle unitNumber
        videoIndex p.videoTitle p.sectionLabel).isSome

/-! ## Progress ledger: writing (`saveVideoProgress`, csv/progress.ts)

Per-run mutable state: the in-memory write-dedup set `writtenVideoIds`, the
rows appended to progress.csv this run (each successful append is exactly one
row; the row carries the dedup key it was written under), and the in-memory
completed set owned by the caller. -/

structure LedgerRow where
  videoId : String
  url : String
  courseTitle : String
  unitNumber : String
  unitTitle : String
  videoIndex : String
  videoTitle : String
  status : String
  timestamp : String
  retryCount : String
deriving DecidableEq, Repr

structure RunState where
  writtenVideoIds : List String
  ledger : List LedgerRow
  completedVideos : List String
deriving DecidableEq, Repr

/-- The state at process start: nothing written yet. -/
def freshRunState (completedVideos : List String) : RunState :=
  ⟨[], [], completedVideos⟩

/-- The arguments of one `saveVideoProgress` invocation. -/
structure SaveArgs where
  courseUrl : String
  courseTitle : Option String
  unitNumber : Int
  unitTitle : String
  videoIndex : Int
  videoTitle : String
  status : String
  retryCount : Int
  timestamp : String
deriving DecidableEq, Repr

/-- The dedup key `saveVideoProgress` computes for its arguments:
`getVideoId(normalized.url, unitNumber, videoIndex)`. -/
def saveArgsId (a : SaveArgs) : String :=
  getVideoId (normalizeDomestikaUrl a.courseUrl).url (some a.unitNumber) (some a.videoIndex)

/-- The CSV row `saveVideoProgress` appends for its arguments (the dedup key
it is written under is carried along). -/
def mkLedgerRow (a : SaveArgs) : LedgerRow :=
  { videoId := saveArgsId a
    url := (normalizeDomestikaUrl a.courseUrl).url
    courseTitle := jsOrStr a.courseTitle (jsOrStr (normalizeDomestikaUrl a.courseUrl).courseTitle "")
    unitNumber := toString a.unitNumber
    unitTitle := a.unitTitle
    videoIndex := toString a.videoIndex
    videoTitle := a.videoTitle
    status := a.status
    timestamp := a.timestamp
    retryCount := toString a.retryCount }

/-- `saveVideoProgress` (csv/progress.ts): skip if the identity was already
written this run, otherwise append one row and record the identity. -/
def saveVideoProgress (st : RunState) (a : SaveArgs) : RunState :=
  if st.writtenVideoIds.contains (saveArgsId a) then st
  else
    { st with
      writtenVideoIds := saveArgsId a :: st.writtenVideoIds
      ledger := st.ledger ++ [mkLedgerRow a] }

/-- A whole run of ledger writes from a fresh process state. -/
def runSaves (completedVideos : List String) (calls : List SaveArgs) : RunState :=
  calls.foldl saveVideoProgress (freshRunState completedVideos)

/-- Number of ledger rows written under a given identity. -/
def countRows (i : String) (ledger : List LedgerRow) : Nat :=
  (ledger.filter (fun r => r.videoId = i)).length

/-! ## Course manifest data (types.ts) -/

structure VideoData where
  playbackURL : String
  title : String
  sectionLabel : String
deriving DecidableEq, Repr

structure CourseUnit where
  title : String
  videoData : List VideoData
  unitNumber : Int
deriving DecidableEq, Repr

/-! ## Manifest cache (scraper/cache.ts)

The cache file is a JSON object keyed by normalized course URL; we model it
as an association list with unique keys (JSON object semantics), looked up on
the first binding and deleted by dropping the key. -/

structure CachedCourseMetadata where
  metadata : List CourseUnit
  timestamp : Int
  courseTitle : Option String
  fullyDownloaded : Option Bool
deriving DecidableEq, Repr

abbrev CacheFile := List (String × CachedCourseMetadata)

def lookupAssoc (c : CacheFile) (k : String) : Option CachedCourseMetadata :=
  match c with
  | [] => none
  | (k', v) :: rest => if k' = k then some v else lookupAssoc rest k

/-- JS `delete cache[key]`: the key is gone afterwards. -/
def delAssoc (c : CacheFile) (k : String) : CacheFile :=
  c.filter (fun p => p.1 ≠ k)

/-- JS `cache[key] = v`. -/
def setAssoc (c : CacheFile) (k : String) (v : CachedCourseMetadata) : CacheFile :=
  (k, v) :: delAssoc c k

/-- The ambient configuration and clock the cache reads:
`Date.now()`, `NO_CACHE`, and the parsed `CACHE_TTL` (none when unset or NaN). -/
structure CacheEnv where
  now : Int
  noCache : Bool
  cacheTtlEnv : Option Int
deriving DecidableEq, Repr

/-- 7 days in milliseconds. -/
def DEFAULT_TTL_MS : Int := 7 * 24 * 60 * 60 * 1000

/-- `getCacheTTL`: the configured TTL when positive, else the default. -/
def getCacheTTL (e : CacheEnv) : Int :=
  match e.cacheTtlEnv with
  | some t => if t > 0 then t else DEFAULT_TTL_MS
  | none => DEFAULT_TTL_MS

/-- `isCacheValid`: entry age strictly below the TTL. -/
def isCacheValid (e : CacheEnv) (cached : CachedCourseMetadata) : Bool :=
  e.now - cached.timestamp < getCacheTTL e

/-- `loadCourseMetadata` (scraper/cache.ts): returns the cached manifest on a
hit; on a TTL miss the expired entry is deleted from the cache file.  The
second component is the cache file after the call. -/
def loadCourseMetadata (e : CacheEnv) (cache : CacheFile) (courseUrl : String) :
    Option (List CourseUnit) × CacheFile :=
  if e.noCache then (none, cache)
  else
    let key := (normalizeDomestikaUrl courseUrl).url
    match lookupAssoc cache key with
    | none => (none, cache)
    | some cached =>
      if isCacheValid e cached then (some cached.metadata, cache)
      else (none, delAssoc cache key)

/-- Modelled from the spec: `coverImageExists` (utils/download-cover.ts) is not
among the provided sources, only its caller is; per the spec it reports whether
the sibling cover asset of the course is present.  We model it as an abstract
filesystem probe keyed by the course title. -/
def coverImageExists (probe : Option String → Bool) (courseTitle : Option String) : Bool :=
  probe courseTitle

/-- All VideoIdentities of a cached manifest, as `isCourseFullyDownloaded`
enumerates them (video positions are 1-based). -/
def courseVideoIds (key : String) (metadata : List CourseUnit) : List String :=
  metadata.flatMap (fun u =>
    (List.range u.videoData.length).map
      (fun i => getVideoId key (some u.unitNumber) (some ((i : Int) + 1))))

/-- `isCourseFullyDownloaded` (scraper/cache.ts).  The second component is
the cache file after the call (the flag may be persisted). -/
def isCourseFullyDownloaded (e : CacheEnv) (coverProbe : Option String → Bool)
    (cache : CacheFile) (courseUrl : String) (completedVideos : List String) :
    Bool × CacheFile :=
  if e.noCache then (false, cache)
  else
    let key := (normalizeDomestikaUrl courseUrl).url
    match lookupAssoc cache key with
    | none => (false, cache)
    | some cached =>
      if ¬ isCacheValid e cached then (false, cache)
      else if cached.fullyDownloaded = some true then (true, cache)
      else
        let ids := courseVideoIds key cached.metadata
        let total := ids.length
        let compl := (ids.filter (fun i => completedVideos.contains i)).length
        if total > 0 ∧ compl = total then
          if coverImageExists coverProbe cached.courseTitle then
            (true, setAssoc cache key { cached with fullyDownloaded := some true })
          else (false, cache)
        else (false, cache)

/-! ## Retry controller (downloader/downloader.ts) -/

/-- `getMaxRetryAttempts`: `MAX_RETRY_ATTEMPTS` when a number at least 1,
else the default 5 (`none` models unset or NaN). -/
def getMaxRetryAttempts (env : Option Int) : Int :=
  match env with
  | none => 5
  | some v => if v < 1 then 5 else v

def maxRetryAttemptsNat (env : Option Int) : Nat :=
  (getMaxRetryAttempts env).toNat

/-- `getBackoffWaitTime`: `min(2^attempt * 1000ms, 5 minutes)`. -/
def getBackoffWaitTime (attempt : Nat) : Nat :=
  min (2 ^ attempt * 1000) (5 * 60 * 1000)

/-- One raw download attempt: the preferred 1080p tier runs first; the
best-available tier runs only when the preferred tier failed. -/
structure RawAttempt where
  ok1080 : Bool
  triedBest : Bool
  okBest : Bool
deriving DecidableEq, Repr

/-- Outcome trace of the retry loop: success flag, final `retryCount`, the
raw attempts made, and the backoff waits performed between attempts. -/
structure LoopResult where
  ok : Bool
  retryCount : Nat
  attempts : List RawAttempt
  waits : List Nat
deriving DecidableEq, Repr

/-- The body of the `while (retryCount <= maxRetries && !downloadSuccess)`
loop of `downloadVideo`, with the tier outcomes supplied by oracles indexed
by the current `retryCount`.  The fuel is `maxRetries + 1 - retryCount` at
the top entry, which the loop never exhausts. -/
def retryLoopGo (t1080 tBest : Nat → Bool) (maxRetries : Nat) : Nat → Nat → LoopResult
  | rc, 0 => ⟨false, rc, [], []⟩
  | rc, fuel + 1 =>
    if t1080 rc then ⟨true, rc, [⟨true, false, false⟩], []⟩
    else if tBest rc then ⟨true, rc, [⟨false, true, true⟩], []⟩
    else if rc < maxRetries then
      let res := retryLoopGo t1080 tBest maxRetries (rc + 1) fuel
      ⟨res.ok, res.retryCount, ⟨false, true, false⟩ :: res.attempts,
        getBackoffWaitTime rc :: res.waits⟩
    else ⟨false, rc, [⟨false, true, false⟩], []⟩

/-- The whole retry loop of one job, entered with `retryCount = 0`. -/
def retryLoop (t1080 tBest : Nat → Bool) (maxRetries : Nat) : LoopResult :=
  retryLoopGo t1080 tBest maxRetries 0 (maxRetries + 1)

/-- Media-fetch subprocess invocations performed by a list of raw attempts. -/
def fetchCount (atts : List RawAttempt) : Nat :=
  atts.foldl (fun n a => n + 1 + (if a.triedBest then 1 else 0)) 0

/-! ## Downloader and post-processing hookup (downloader.ts, subtitles/embed.ts) -/

/-- `fs.mkdirSync(finalDir, {recursive: true})`: ensure the directory exists. -/
def ensureDir (fs : FS) (d : DirKey) : FS :=
  fun k => if k = d then some ((fs d).getD []) else fs k

def fileInDir (fs : FS) (d : DirKey) (name : String) : Bool :=
  match fs d with
  | none => false
  | some files => files.any (fun f => f.name = name)

/-- `waitForFileComplete` (downloader.ts): the size-stability polling loop
returns for every file present in a quiescent filesystem (a stable size,
including 0, satisfies the stability check) and throws only when the file is
absent for the whole wait window. -/
def waitForFileComplete (fs : FS) (d : DirKey) (name : String) : Except String Unit :=
  if fileInDir fs d name then .ok ()
  else .error ("File " ++ name ++ " did not complete within 30000ms")

/-- The environment of one `downloadVideo` call: the filesystem, the
outcomes of the external media-fetch and transcode subprocesses, the
subtitle sidecar outcomes, and configuration. -/
structure DlEnv where
  fs : FS
  downloadPath : String
  tier1080 : Nat → Bool
  tierBest : Nat → Bool
  subFetchOk : String → Bool
  subFileFound : String → Bool
  subValid : String → Bool
  ffmpeg1Ok : Bool
  ffmpeg2Ok : Bool
  maxRetryEnv : Option Int
  timestamp : String

/-- `embedSubtitles` (subtitles/embed.ts).  The whole body runs inside a
`try`/`catch` that returns `false` on any internal error (including the
throw raised when both ffmpeg commands fail), so the function is total and
never escalates: sidecars failing validation are filtered out with a
warning, and the function reports only a boolean outcome. -/
def embedSubtitles (env : DlEnv) (fs : FS) (d : DirKey) (videoName : String)
    (subLangs : List String) : Bool :=
  if ¬ fileInDir fs d videoName then false
  else
    let valid := subLangs.filter (fun l => env.subValid l)
    if valid.isEmpty then false
    else if env.ffmpeg1Ok then true
    else if env.ffmpeg2Ok then true
    else false

/-- The subtitle block of `downloadVideo` (lines after a successful media
fetch): fetch each requested language (failures recorded and skipped),
locate sidecars, and when any were found locate the video file, wait for it
and run the embed step.  Errors (`Except.error`) model the only uncaught
throw sites in the block: `fs.readdirSync` on an absent directory and the
`waitForFileComplete` timeout. -/
def postProcessSubtitles (env : DlEnv) (fs : FS) (d : DirKey) (fileName : String)
    (langs : List String) : Except String Bool :=
  let subtitleLangsFound := langs.filter (fun l => env.subFetchOk l && env.subFileFound l)
  if subtitleLangsFound.isEmpty then .ok false
  else
    let mp4Name := fileName ++ ".mp4"
    let located : Except String (Option String) :=
      if fileInDir fs d mp4Name then .ok (some mp4Name)
      else
        match fs d with
        | none => .error "readdir failed"
        | some files =>
          match files.find? (fun f =>
              startsWithJs f.name fileName
                && (endsWithJs f.name ".mp4" || endsWithJs f.name ".m3u8"
                    || endsWithJs f.name ".ts")) with
          | some f => .ok (some f.name)
          | none => .ok none
    match located with
    | .error e => .error e
    | .ok none => .ok false
    | .ok (some name) =>
      match waitForFileComplete fs d name with
      | .error e => .error e
      | .ok _ => .ok (embedSubtitles env fs d name subtitleLangsFound)

/-- The observable outcome of one `downloadVideo` call: the returned value
or propagated error, the run state after the call, and instrumentation (how
many media-fetch subprocesses ran, the raw attempt trace, the backoff waits,
and whether the subtitle post-processing block ran). -/
structure DlOutcome where
  result : Except String Bool
  state : RunState
  fetchCalls : Nat
  rawAttempts : List RawAttempt
  waits : List Nat
  postRan : Bool

/-- The `saveVideoProgress` call followed by `completedVideos.add(videoId)`
performed on the two success paths of `downloadVideo` (guarded there by
`if (courseUrl && completedVideos)`). -/
def recordCompleted (st : RunState) (cu : String) (courseTitle : Option String)
    (unitNumber : Int) (unitTitle : String) (index : Int) (videoTitle : String)
    (retryCount : Int) (timestamp : String) : RunState :=
  let st' := saveVideoProgress st
    ⟨cu, courseTitle, unitNumber, unitTitle, index, videoTitle,
      "completed", retryCount, timestamp⟩
  { st' with
    completedVideos :=
      getVideoId cu (some unitNumber) (some index) :: st'.completedVideos }

/-- The early-exit branch of `downloadVideo`: the correctly-named media file
already exists, so record `completed` with retry count 0 (when a course URL
and a completed set were supplied) and return true without fetching. -/
def downloadVideoExisting (env : DlEnv) (st : RunState) (vData : VideoData)
    (courseTitle : Option String) (unitTitle : String) (index : Int)
    (unitNumber : Int) (courseUrl : Option String) (useCompletedSet : Bool) : DlOutcome :=
  let st1 :=
    match courseUrl with
    | some cu =>
      if useCompletedSet then
        recordCompleted st cu courseTitle unitNumber unitTitle index vData.title 0
          env.timestamp
      else st
    | none => st
  ⟨.ok true, st1, 0, [], [], false⟩

/-- The fetch path of `downloadVideo`: retry loop with quality fallback and
exponential backoff, then the subtitle post-processing block, then progress
recording; a retry-exhaustion failure records `failed` with the final retry
count before the error propagates. -/
def downloadVideoFetch (env : DlEnv) (st : RunState) (vData : VideoData)
    (courseTitle : Option String) (unitTitle : String) (index : Int)
    (subtitleLangs : Option (List String)) (unitNumber : Int)
    (courseUrl : Option String) (useCompletedSet : Bool) : DlOutcome :=
  let dir := mkVideoDirKey env.downloadPath courseTitle vData.sectionLabel unitTitle
  let fs1 := ensureDir env.fs dir
  let fileName := mkFileStem courseTitle unitNumber index vData.title
  let res := retryLoop env.tier1080 env.tierBest (maxRetryAttemptsNat env.maxRetryEnv)
  let core : Except String Bool × RunState × Bool :=
    if res.ok then
      let post : Except String Bool :=
        match subtitleLangs with
        | some langs =>
          if langs.isEmpty then .ok false
          else postProcessSubtitles env fs1 dir fileName langs
        | none => .ok false
      match post with
      | .error e => (.error ("Error downloading video: " ++ e), st, true)
      | .ok _ =>
        let st1 :=
          match courseUrl with
          | some cu =>
            if useCompletedSet then
              recordCompleted st cu courseTitle unitNumber unitTitle index vData.title
                (res.retryCount : Int) env.timestamp
            else st
          | none => st
        (.ok true,  st1,
          match subtitleLangs with
          | some langs => !langs.isEmpty
          | none => false)
    else
      let st1 :=
        match courseUrl with
        | some cu =>
          saveVideoProgress st
            ⟨cu, courseTitle, unitNumber, unitTitle, index, vData.title,
              "failed", (res.retryCount : Int), env.timestamp⟩
        | none => st
      (.error ("Failed to download video after " ++ toString res.retryCount
          ++ " attempts"), st1, false)
  ⟨core.1, core.2.1, fetchCount res.attempts, res.attempts, res.waits, core.2.2⟩

/-- `downloadVideo` (downloader.ts, retry-loop version): invalid-URL guard,
existing-file early exit, otherwise the fetch path. -/
def downloadVideo (env : DlEnv) (st : RunState) (vData : VideoData)
    (courseTitle : Option String) (unitTitle : String) (index : Int)
    (subtitleLangs : Option (List String)) (unitNumber : Int)
    (courseUrl : Option String) (useCompletedSet : Bool) : DlOutcome :=
  if vData.playbackURL = "" then
    ⟨.error ("Invalid video URL for " ++ vData.title), st, 0, [], [], false⟩
  else
    match checkVideoFileExists env.fs env.downloadPath courseTitle unitTitle unitNumber
        index vData.title vData.sectionLabel with
    | some _ =>
      downloadVideoExisting env st vData courseTitle unitTitle index unitNumber
        courseUrl useCompletedSet
    | none =>
      downloadVideoFetch env st vData courseTitle unitTitle index subtitleLangs
        unitNumber courseUrl useCompletedSet

/-! ## Download scheduler (scrapeSite, the `all` path) -/

/-- `MAX_CONCURRENT_DOWNLOADS` when a number at least 1, else the default 2
(`none` models unset or NaN). -/
def getMaxConcurrentDownloads (env : Option Int) : Int :=
  match env with
  | none => 2
  | some v => if v < 1 then 2 else v

/-- A queued download job (scheduler-internal). -/
structure DownloadTask where
  vData : VideoData
  unitTitle : String
  unitNumber : Int
  videoIndex : Int
deriving DecidableEq, Repr

/-- The queue-building loop of `scrapeSite`: flatten the manifest in order,
drop entries with no playback URL, drop entries already completed per
`isVideoCompleted` (ledger, wildcard, or filesystem probe). -/
def buildDownloadQueue (fs : FS) (downloadPath courseUrl : String)
    (courseTitle : Option String) (completedVideos : List String)
    (allVideos : List CourseUnit) : List DownloadTask :=
  allVideos.flatMap (fun unit =>
    unit.videoData.enum.filterMap (fun p =>
      let vData := p.2
      if vData.playbackURL = "" then none
      else
        let videoIndex : Int := (p.1 : Int) + 1
        if isVideoCompleted fs downloadPath courseUrl unit.unitNumber videoIndex
            completedVideos (some ⟨courseTitle, unit.title, vData.title, vData.sectionLabel⟩)
        then none
        else some ⟨vData, unit.title, unit.unitNumber, videoIndex⟩))

/-- Scheduler state: jobs not yet started (in queue order), the in-flight
set (`activePromises`), the start history, and the completion history. -/
structure SchedState where
  pending : List Nat
  inflight : List Nat
  started : List Nat
  finished : List Nat
deriving DecidableEq, Repr

/-- One scheduler transition.  A job is started only when the in-flight set
is strictly below the ceiling (the `while (activePromises.size >=
MAX_CONCURRENT_DOWNLOADS) await Promise.race(...)` guard), and only the head
of the queue can start (the `for (const task of downloadQueue)` order).  Any
in-flight job may finish (`Promise.race` waits on the whole set). -/
inductive SchedStep (n : Int) : SchedState → SchedState → Prop
  | start (j : Nat) (rest inflight started finished : List Nat)
      (hslot : (inflight.length : Int) < n) :
      SchedStep n ⟨j :: rest, inflight, started, finished⟩
        ⟨rest, j :: inflight, started ++ [j], finished⟩
  | finish (pending inflight started finished : List Nat) (j : Nat)
      (hmem : j ∈ inflight) :
      SchedStep n ⟨pending, inflight, started, finished⟩
        ⟨pending, inflight.erase j, started, finished ++ [j]⟩

/-- Scheduler start state for a built queue. -/
def schedInit (queue : List Nat) : SchedState := ⟨queue, [], [], []⟩

/-- States a scheduler run can reach from the initial queue. -/
def SchedReachable (n : Int) (queue : List Nat) (s : SchedState) : Prop :=
  Relation.ReflTransGen (SchedStep n) (schedInit queue) s

/-! # Supporting lemmas -/

theorem countRows_append (i : String) (l l' : List LedgerRow) :
    countRows i (l ++ l') = countRows i l + countRows i l' := by
  simp [countRows, List.filter_append]

/-- The run-state invariant of the write-dedup set: the ledger holds exactly
one row per identity in `writtenVideoIds` and none for other identities. -/
def WriteInv (st : RunState) : Prop :=
  ∀ i, countRows i st.ledger = if i ∈ st.writtenVideoIds then 1 else 0

theorem writeInv_fresh (completed : List String) : WriteInv (freshRunState completed) := by
  intro i
  simp [freshRunState, countRows]

theorem countRows_singleton (i : String) (r : LedgerRow) :
    countRows i [r] = if r.videoId = i then 1 else 0 := by
  by_cases h : r.videoId = i <;> simp [countRows, h]

theorem writeInv_save (st : RunState) (a : SaveArgs) (hinv : WriteInv st) :
    WriteInv (saveVideoProgress st a) := by
  intro i
  by_cases h : saveArgsId a ∈ st.writtenVideoIds
  · have hst : saveVideoProgress st a = st := by
      simp [saveVideoProgress, h]
    rw [hst]
    exact hinv i
  · have hc : ¬ (st.writtenVideoIds.contains (saveArgsId a) = true) :=
      fun hh => h (List.elem_iff.mp hh)
    simp only [saveVideoProgress, if_neg hc, countRows_append, countRows_singleton]
    by_cases hi : saveArgsId a = i
    · subst hi
      have h0 : countRows (saveArgsId a) st.ledger = 0 := by
        rw [hinv (saveArgsId a)]
        simp [h]
      simp [mkLedgerRow, h0]
    · have h2 : ¬ i = saveArgsId a := fun hh => hi hh.symm
      rw [hinv i]
      simp [mkLedgerRow, hi, List.mem_cons, h2]

theorem writeInv_foldl (calls : List SaveArgs) :
    ∀ st : RunState, WriteInv st → WriteInv (calls.foldl saveVideoProgress st) := by
  induction calls with
  | nil => intro st h; exact h
  | cons a rest ih =>
    intro st h
    exact ih (saveVideoProgress st a) (writeInv_save st a h)

theorem writeInv_runSaves (completed : List String) (calls : List SaveArgs) :
    WriteInv (runSaves completed calls) :=
  writeInv_foldl calls (freshRunState completed) (writeInv_fresh completed)

theorem saveArgsId_mem_written (st : RunState) (a : SaveArgs) :
    saveArgsId a ∈ (saveVideoProgress st a).writtenVideoIds := by
  by_cases h : saveArgsId a ∈ st.writtenVideoIds
  · simp [saveVideoProgress, h]
  · simp [saveVideoProgress, h]

theorem written_mono (st : RunState) (a : SaveArgs) (i : String)
    (h : i ∈ st.writtenVideoIds) : i ∈ (saveVideoProgress st a).writtenVideoIds := by
  by_cases hc : saveArgsId a ∈ st.writtenVideoIds
  · simpa [saveVideoProgress, hc] using h
  · simp [saveVideoProgress, hc, List.mem_cons, h]

/-! ## Retry-loop lemmas -/

theorem retryLoopGo_waits_getD (t1 t2 : Nat → Bool) (M : Nat) :
    ∀ (fuel rc i : Nat), i < (retryLoopGo t1 t2 M rc fuel).waits.length →
      (retryLoopGo t1 t2 M rc fuel).waits.getD i 0 = getBackoffWaitTime (rc + i) := by
  intro fuel
  induction fuel with
  | zero => intro rc i h; simp [retryLoopGo] at h
  | succ f ih =>
    intro rc i h
    by_cases h1 : t1 rc
    · simp [retryLoopGo, h1] at h
    · by_cases h2 : t2 rc
      · simp [retryLoopGo, h1, h2] at h
      · by_cases h3 : rc < M
        · simp only [retryLoopGo, h1, h2, h3, Bool.false_eq_true, if_false, if_true,
            if_pos] at h ⊢
          cases i with
          | zero => simp
          | succ j =>
            simp only [List.getD_cons_succ]
            have hlen : j < (retryLoopGo t1 t2 M (rc + 1) f).waits.length := by
              simpa using h
            have := ih (rc + 1) j hlen
            rw [this]
            congr 1
            omega
        · simp [retryLoopGo, h1, h2, h3] at h

/-! ## Downloader dispatch lemmas -/

theorem downloadVideo_eq_fetch (env : DlEnv) (st : RunState) (vData : VideoData)
    (courseTitle : Option String) (unitTitle : String) (index : Int)
    (subtitleLangs : Option (List String)) (unitNumber : Int)
    (courseUrl : Option String) (useCompletedSet : Bool)
    (hurl : ¬ vData.playbackURL = "")
    (hmiss : checkVideoFileExists env.fs env.downloadPath courseTitle unitTitle unitNumber
      index vData.title vData.sectionLabel = none) :
    downloadVideo env st vData courseTitle unitTitle index subtitleLangs unitNumber
        courseUrl useCompletedSet
      = downloadVideoFetch env st vData courseTitle unitTitle index subtitleLangs
          unitNumber courseUrl useCompletedSet := by
  unfold downloadVideo
  rw [if_neg hurl, hmiss]

theorem downloadVideo_eq_existing (env : DlEnv) (st : RunState) (vData : VideoData)
    (courseTitle : Option String) (unitTitle : String) (index : Int)
    (subtitleLangs : Option (List String)) (unitNumber : Int)
    (courseUrl : Option String) (useCompletedSet : Bool) (p : String)
    (hurl : ¬ vData.playbackURL = "")
    (hexist : checkVideoFileExists env.fs env.downloadPath courseTitle unitTitle unitNumber
      index vData.title vData.sectionLabel = some p) :
    downloadVideo env st vData courseTitle unitTitle index subtitleLangs unitNumber
        courseUrl useCompletedSet
      = downloadVideoExisting env st vData courseTitle unitTitle index unitNumber
          courseUrl useCompletedSet := by
  unfold downloadVideo
  rw [if_neg hurl, hexist]

theorem downloadVideoFetch_waits (env : DlEnv) (st : RunState) (vData : VideoData)
    (courseTitle : Option String) (unitTitle : String) (index : Int)
    (subtitleLangs : Option (List String)) (unitNumber : Int)
    (courseUrl : Option String) (useCompletedSet : Bool) :
    (downloadVideoFetch env st vData courseTitle unitTitle index subtitleLangs unitNumber
        courseUrl useCompletedSet).waits
      = (retryLoop env.tier1080 env.tierBest (maxRetryAttemptsNat env.maxRetryEnv)).waits := rfl

theorem downloadVideoFetch_rawAttempts (env : DlEnv) (st : RunState) (vData : VideoData)
    (courseTitle : Option String) (unitTitle : String) (index : Int)
    (subtitleLangs : Option (List String)) (unitNumber : Int)
    (courseUrl : Option String) (useCompletedSet : Bool) :
    (downloadVideoFetch env st vData courseTitle unitTitle index subtitleLangs unitNumber
        courseUrl useCompletedSet).rawAttempts
      = (retryLoop env.tier1080 env.tierBest (maxRetryAttemptsNat env.maxRetryEnv)).attempts := rfl

/-! # Claim theorems -/

/-- C2: within a single process run, at most one ledger row is appended per
VideoIdentity, no matter how often `saveVideoProgress` is invoked for it or
with which statuses; two invocations for the same identity yield exactly one
row. -/
theorem ledger_write_idempotent :
    (∀ (completed : List String) (calls : List SaveArgs) (i : String),
      countRows i (runSaves completed calls).ledger ≤ 1) ∧
    (∀ (completed : List String) (a b : SaveArgs), saveArgsId b = saveArgsId a →
      countRows (saveArgsId a) (runSaves completed [a, b]).ledger = 1) := by
  constructor
  · intro completed calls i
    rw [writeInv_runSaves completed calls i]
    split <;> omega
  · intro completed a b _
    rw [writeInv_runSaves completed [a, b] (saveArgsId a)]
    have h1 : saveArgsId a ∈ (saveVideoProgress (freshRunState completed) a).writtenVideoIds :=
      saveArgsId_mem_written _ a
    have h2 : runSaves completed [a, b]
        = saveVideoProgress (saveVideoProgress (freshRunState completed) a) b := rfl
    have hmem : saveArgsId a ∈ (runSaves completed [a, b]).writtenVideoIds := by
      rw [h2]
      exact written_mono _ b _ h1
    simp [hmem]

/-- Witness for C2 at a concrete run: writing the same identity twice (even
with different statuses) leaves exactly one ledger row for it. -/
theorem ledger_write_idempotent_witness :
    countRows
      (saveArgsId ⟨"https://www.domestika.org/en/courses/12-abc", none, 1, "U1", 2, "V",
        "completed", 0, "T"⟩)
      (runSaves []
        [⟨"https://www.domestika.org/en/courses/12-abc", none, 1, "U1", 2, "V",
            "completed", 0, "T"⟩,
         ⟨"https://www.domestika.org/en/courses/12-abc", none, 1, "U1", 2, "V",
            "failed", 3, "T2"⟩]).ledger = 1 :=
  ledger_write_idempotent.2 []
    ⟨"https://www.domestika.org/en/courses/12-abc", none, 1, "U1", 2, "V",
      "completed", 0, "T"⟩
    ⟨"https://www.domestika.org/en/courses/12-abc", none, 1, "U1", 2, "V",
      "failed", 3, "T2"⟩ rfl

/-- C3: the wait before the nth retry (n starting at 1) of a download job is
`min(2^(n-1) * 1000ms, 300000ms)`: 1s, 2s, 4s, ..., capped at 5 minutes. -/
theorem backoff_wait_times (env : DlEnv) (st : RunState) (vData : VideoData)
    (courseTitle : Option String) (unitTitle : String) (index : Int)
    (subtitleLangs : Option (List String)) (unitNumber : Int)
    (courseUrl : Option String) (useCompletedSet : Bool) (n : Nat)
    (hurl : ¬ vData.playbackURL = "")
    (hmiss : checkVideoFileExists env.fs env.downloadPath courseTitle unitTitle unitNumber
      index vData.title vData.sectionLabel = none)
    (hn : 1 ≤ n)
    (hlen : n ≤ (downloadVideo env st vData courseTitle unitTitle index subtitleLangs
      unitNumber courseUrl useCompletedSet).waits.length) :
    (downloadVideo env st vData courseTitle unitTitle index subtitleLangs unitNumber
        courseUrl useCompletedSet).waits.getD (n - 1) 0
      = min (2 ^ (n - 1) * 1000) 300000 := by
  rw [downloadVideo_eq_fetch env st vData courseTitle unitTitle index subtitleLangs
      unitNumber courseUrl useCompletedSet hurl hmiss] at hlen ⊢
  rw [downloadVideoFetch_waits] at hlen ⊢
  have h := retryLoopGo_waits_getD env.tier1080 env.tierBest
    (maxRetryAttemptsNat env.maxRetryEnv) (maxRetryAttemptsNat env.maxRetryEnv + 1)
    0 (n - 1) (by unfold retryLoop at hlen; omega)
  unfold retryLoop
  rw [h]
  simp [getBackoffWaitTime]

/-- Witness for C3: with every tier failing and the default maximum of 5
retries, the wait before the third retry is 4000ms. -/
theorem backoff_wait_times_witness :
    (downloadVideo
        ⟨(fun _ => none), "dl", (fun _ => false), (fun _ => false), (fun _ => true),
          (fun _ => true), (fun _ => true), false, false, none, "T"⟩
        (freshRunState []) ⟨"u", "t", "s"⟩ none "unit" 1 none 1 none false).waits.getD 2 0
      = min (2 ^ 2 * 1000) 300000 :=
  backoff_wait_times _ _ _ _ _ _ _ _ _ _ 3 (by decide) rfl (by decide) (by decide)

/-! ## Cache lemmas -/

theorem lookupAssoc_delAssoc (c : CacheFile) (k : String) :
    lookupAssoc (delAssoc c k) k = none := by
  induction c with
  | nil => rfl
  | cons p rest ih =>
    by_cases h : p.1 = k
    · simpa [delAssoc, h] using ih
    · simpa [delAssoc, lookupAssoc, h] using ih

theorem lookupAssoc_setAssoc (c : CacheFile) (k : String) (v : CachedCourseMetadata) :
    lookupAssoc (setAssoc c k v) k = some v := by
  simp [setAssoc, lookupAssoc]

/-- C6: `loadCourseMetadata` misses exactly when the cache is disabled, the
entry is absent, or the entry age reached the TTL; an entry of age
TTL − 1 ms is a hit; a TTL-expired miss evicts the entry from the cache
file; the default TTL is 7 days. -/
theorem cache_ttl_load (e : CacheEnv) (cache : CacheFile) (courseUrl : String) :
    ((loadCourseMetadata e cache courseUrl).1 = none ↔
      (e.noCache = true ∨
        lookupAssoc cache (normalizeDomestikaUrl courseUrl).url = none ∨
        ∃ c, lookupAssoc cache (normalizeDomestikaUrl courseUrl).url = some c ∧
          getCacheTTL e ≤ e.now - c.timestamp)) ∧
    (∀ c, e.noCache = false →
      lookupAssoc cache (normalizeDomestikaUrl courseUrl).url = some c →
      e.now - c.timestamp = getCacheTTL e - 1 →
      (loadCourseMetadata e cache courseUrl).1 = some c.metadata) ∧
    (∀ c, e.noCache = false →
      lookupAssoc cache (normalizeDomestikaUrl courseUrl).url = some c →
      getCacheTTL e ≤ e.now - c.timestamp →
      (loadCourseMetadata e cache courseUrl).1 = none ∧
        lookupAssoc (loadCourseMetadata e cache courseUrl).2
          (normalizeDomestikaUrl courseUrl).url = none) ∧
    (e.cacheTtlEnv = none → getCacheTTL e = 7 * 24 * 60 * 60 * 1000) := by
  refine ⟨?_, ?_, ?_, ?_⟩
  · by_cases hnc : e.noCache
    · simp [loadCourseMetadata, hnc]
    · cases hl : lookupAssoc cache (normalizeDomestikaUrl courseUrl).url with
      | none => simp [loadCourseMetadata, hnc, hl]
      | some c =>
        by_cases hv : e.now - c.timestamp < getCacheTTL e
        · simp only [loadCourseMetadata, hnc, Bool.false_eq_true, if_false, hl,
            isCacheValid, decide_eq_true_eq, hv, if_true]
          simp [hnc, hv]
          try omega
        · simp only [loadCourseMetadata, hnc, Bool.false_eq_true, if_false, hl,
            isCacheValid, decide_eq_true_eq, hv, if_false]
          simp [hnc, hv]
          try omega
  · intro c hnc hl hage
    have hv : e.now - c.timestamp < getCacheTTL e := by omega
    simp [loadCourseMetadata, hnc, hl, isCacheValid, hv]
  · intro c hnc hl hage
    have hv : ¬ (e.now - c.timestamp < getCacheTTL e) := by omega
    constructor
    · simp [loadCourseMetadata, hnc, hl, isCacheValid, hv]
    · have h2 : (loadCourseMetadata e cache courseUrl).2
          = delAssoc cache (normalizeDomestikaUrl courseUrl).url := by
        simp [loadCourseMetadata, hnc, hl, isCacheValid, hv]
      rw [h2]
      exact lookupAssoc_delAssoc cache (normalizeDomestikaUrl courseUrl).url
  · intro h
    simp [getCacheTTL, h, DEFAULT_TTL_MS]

/-- Witness for C6 at a concrete cache: an entry written at time 1000 with
the default TTL is a miss at age TTL and is evicted from the cache file. -/
theorem cache_ttl_load_witness :
    (loadCourseMetadata ⟨604801000, false, none⟩
        [("https://www.domestika.org/es/courses/9/course",
          ⟨[], 1000, none, none⟩)] "https://www.domestika.org/en/courses/9-a").1 = none ∧
    lookupAssoc
      (loadCourseMetadata ⟨604801000, false, none⟩
        [("https://www.domestika.org/es/courses/9/course", ⟨[], 1000, none, none⟩)]
        "https://www.domestika.org/en/courses/9-a").2
      (normalizeDomestikaUrl "https://www.domestika.org/en/courses/9-a").url = none :=
  (cache_ttl_load ⟨604801000, false, none⟩
      [("https://www.domestika.org/es/courses/9/course", ⟨[], 1000, none, none⟩)]
      "https://www.domestika.org/en/courses/9-a").2.2.1
    ⟨[], 1000, none, none⟩ rfl (by decide) (by decide)

/-- C7: `isCourseFullyDownloaded` short-circuits to true when the persisted
flag is set on a valid entry; otherwise it returns true only when every
VideoIdentity of the cached manifest is in the completed set and the cover
asset exists, persisting the flag in that case; with all videos completed
but no cover it returns false and the cache file is left unchanged. -/
theorem fully_downloaded_requires_cover (e : CacheEnv) (coverProbe : Option String → Bool)
    (cache : CacheFile) (courseUrl : String) (completedVideos : List String) :
    (∀ c, e.noCache = false →
      lookupAssoc cache (normalizeDomestikaUrl courseUrl).url = some c →
      isCacheValid e c = true → c.fullyDownloaded = some true →
      isCourseFullyDownloaded e coverProbe cache courseUrl completedVideos
        = (true, cache)) ∧
    (∀ c, lookupAssoc cache (normalizeDomestikaUrl courseUrl).url = some c →
      ¬ c.fullyDownloaded = some true →
      (isCourseFullyDownloaded e coverProbe cache courseUrl completedVideos).1 = true →
      ((∀ i ∈ courseVideoIds (normalizeDomestikaUrl courseUrl).url c.metadata,
          completedVideos.contains i = true) ∧
        coverImageExists coverProbe c.courseTitle = true ∧
        ∃ c', lookupAssoc
            (isCourseFullyDownloaded e coverProbe cache courseUrl completedVideos).2
            (normalizeDomestikaUrl courseUrl).url = some c' ∧
          c'.fullyDownloaded = some true)) ∧
    (∀ c, e.noCache = false →
      lookupAssoc cache (normalizeDomestikaUrl courseUrl).url = some c →
      isCacheValid e c = true → ¬ c.fullyDownloaded = some true →
      (∀ i ∈ courseVideoIds (normalizeDomestikaUrl courseUrl).url c.metadata,
        completedVideos.contains i = true) →
      coverImageExists coverProbe c.courseTitle = false →
      isCourseFullyDownloaded e coverProbe cache courseUrl completedVideos
        = (false, cache)) := by
  refine ⟨?_, ?_, ?_⟩
  · intro c hnc hl hv hflag
    simp [isCourseFullyDownloaded, hnc, hl, hv, hflag]
  · intro c hl hflag hres
    by_cases hnc : e.noCache
    · simp [isCourseFullyDownloaded, hnc] at hres
    · by_cases hv : isCacheValid e c
      · by_cases h0 :
            0 < (courseVideoIds (normalizeDomestikaUrl courseUrl).url c.metadata).length
        · by_cases hALL : ∀ a ∈ courseVideoIds (normalizeDomestikaUrl courseUrl).url
              c.metadata, a ∈ completedVideos
          · by_cases hcov : coverProbe c.courseTitle
            · refine ⟨fun i hi => List.elem_iff.mpr (hALL i hi), hcov, ?_⟩
              have hfe : List.filter (fun i => completedVideos.contains i)
                  (courseVideoIds (normalizeDomestikaUrl courseUrl).url c.metadata)
                  = courseVideoIds (normalizeDomestikaUrl courseUrl).url c.metadata :=
                List.filter_eq_self.mpr (fun a ha => List.elem_iff.mpr (hALL a ha))
              have h2 : (isCourseFullyDownloaded e coverProbe cache courseUrl
                  completedVideos).2
                  = setAssoc cache (normalizeDomestikaUrl courseUrl).url
                      { c with fullyDownloaded := some true } := by
                simp only [isCourseFullyDownloaded, hnc, Bool.false_eq_true, if_false,
                  hl, hv, if_true, hflag, coverImageExists, hcov]
                simp [hflag, h0, hfe]
                rw [if_pos hALL]
              rw [h2, lookupAssoc_setAssoc]
              exact ⟨_, rfl, rfl⟩
            · simp [isCourseFullyDownloaded, hnc, hl, hv, hflag, h0, hALL,
                coverImageExists, hcov] at hres
          · simp [isCourseFullyDownloaded, hnc, hl, hv, hflag, h0, hALL] at hres
        · simp [isCourseFullyDownloaded, hnc, hl, hv, hflag, h0] at hres
      · simp [isCourseFullyDownloaded, hnc, hl, hv] at hres
  · intro c hnc hl hv hflag hall hcov
    have hALL : ∀ a ∈ courseVideoIds (normalizeDomestikaUrl courseUrl).url c.metadata,
        a ∈ completedVideos := fun a ha => List.elem_iff.mp (hall a ha)
    simp only [coverImageExists] at hcov
    by_cases h0 :
        0 < (courseVideoIds (normalizeDomestikaUrl courseUrl).url c.metadata).length
    · simp [isCourseFullyDownloaded, hnc, hl, hv, hflag, h0, hALL, coverImageExists, hcov]
    · simp [isCourseFullyDownloaded, hnc, hl, hv, hflag, h0]

/-- Witness for C7: all (one) videos of the cached manifest completed but the
cover probe reports no cover asset, so the course is not fully downloaded and
the flag stays unset. -/
theorem fully_downloaded_requires_cover_witness :
    isCourseFullyDownloaded ⟨2000, false, none⟩ (fun _ => false)
        [("https://www.domestika.org/es/courses/9/course",
          ⟨[⟨"U1", [⟨"http://p", "V1", "Course"⟩], 1⟩], 1000, some "Title", none⟩)]
        "https://www.domestika.org/en/courses/9-a"
        [getVideoId "https://www.domestika.org/es/courses/9/course" (some 1) (some 1)]
      = (false,
        [("https://www.domestika.org/es/courses/9/course",
          ⟨[⟨"U1", [⟨"http://p", "V1", "Course"⟩], 1⟩], 1000, some "Title", none⟩)]) :=
  (fully_downloaded_requires_cover ⟨2000, false, none⟩ (fun _ => false)
      [("https://www.domestika.org/es/courses/9/course",
        ⟨[⟨"U1", [⟨"http://p", "V1", "Course"⟩], 1⟩], 1000, some "Title", none⟩)]
      "https://www.domestika.org/en/courses/9-a"
      [getVideoId "https://www.domestika.org/es/courses/9/course" (some 1) (some 1)]).2.2
    ⟨[⟨"U1", [⟨"http://p", "V1", "Course"⟩], 1⟩], 1000, some "Title", none⟩
    rfl (by decide) (by decide) (by decide) (by decide) rfl

/-- C8: a course-level `completed` ledger row with empty unit and video
columns makes `loadProgress` emit the wildcard identity, and
`isVideoCompleted` then returns true for every unit and video position under
any surface form of that course URL. -/
theorem wildcard_course_completion (records : List CsvRow) (row : CsvRow) (u : String)
    (hrow : row ∈ records)
    (hurl : rowField row ["url", "URL", "course_url", "courseUrl"] = u)
    (hu : ¬ u = "")
    (hstatus : toLowerJs (rowField row ["status", "Status"]) = "completed")
    (hunit : rowField row ["unitNumber", "unit_number"] = "")
    (hvid : rowField row ["videoIndex", "video_index"] = "") :
    wildcardVideoId u ∈ loadProgress records ∧
    ∀ (fs : FS) (dp courseUrl' : String) (unitNumber videoIndex : Int)
      (probe : Option ProbeFields),
      (normalizeDomestikaUrl courseUrl').url = (normalizeDomestikaUrl u).url →
      isVideoCompleted fs dp courseUrl' unitNumber videoIndex (loadProgress records)
        probe = true := by
  have hids : rowCompletedIds row = [wildcardVideoId u] := by
    rw [rowCompletedIds]
    rw [hurl, hstatus, hunit, hvid]
    simp [hu]
  have hmem : wildcardVideoId u ∈ loadProgress records := by
    rw [loadProgress]
    exact List.mem_flatMap.mpr ⟨row, hrow, by rw [hids]; exact List.mem_singleton.mpr rfl⟩
  refine ⟨hmem, ?_⟩
  intro fs dp courseUrl' unitNumber videoIndex probe hnorm
  have hwc : wildcardVideoId courseUrl' = wildcardVideoId u := by
    rw [wildcardVideoId, wildcardVideoId, hnorm]
  by_cases h1 : (loadProgress records).contains
      (getVideoId courseUrl' (some unitNumber) (some videoIndex))
  · simp only [isVideoCompleted]
    simp [List.elem_iff.mp h1]
  · have h2 : wildcardVideoId courseUrl' ∈ loadProgress records := by
      rw [hwc]
      exact hmem
    simp only [isVideoCompleted]
    simp [h2]

/-- Witness for C8 at a concrete legacy ledger: the wildcard identity is
loaded, and a video of that course given by a unit-page URL is reported
completed. -/
theorem wildcard_course_completion_witness :
    wildcardVideoId "https://www.domestika.org/en/courses/12-abc" ∈
      loadProgress [[("url", "https://www.domestika.org/en/courses/12-abc"),
        ("status", "Completed")]] ∧
    isVideoCompleted (fun _ => none) "dl"
      "https://www.domestika.org/en/courses/12-abc/units/7-x" 3 9
      (loadProgress [[("url", "https://www.domestika.org/en/courses/12-abc"),
        ("status", "Completed")]]) none = true := by
  have h := wildcard_course_completion
    [[("url", "https://www.domestika.org/en/courses/12-abc"), ("status", "Completed")]]
    [("url", "https://www.domestika.org/en/courses/12-abc"), ("status", "Completed")]
    "https://www.domestika.org/en/courses/12-abc"
    (by decide) (by decide) (by decide) (by decide) (by decide) (by decide)
  exact ⟨h.1, h.2 (fun _ => none) "dl"
    "https://www.domestika.org/en/courses/12-abc/units/7-x" 3 9 none (by decide)⟩

/-- C5: with the probe fields supplied and an empty ledger-derived completed
set, a non-empty regular file in the expected target directory whose name
starts with the deterministic stem and carries a video extension makes
`isVideoCompleted` return true, and the scheduler's queue builder excludes
that job. -/
theorem filesystem_fallback_completion (fs : FS) (dp courseUrl : String)
    (courseTitle : Option String) (allVideos : List CourseUnit)
    (unit : CourseUnit) (vData : VideoData) (videoIndex : Int)
    (files : List FSEntry) (f : FSEntry)
    (hdir : fs (mkVideoDirKey dp courseTitle vData.sectionLabel unit.title) = some files)
    (hf : f ∈ files)
    (hstem : startsWithJs f.name
      (mkFileStem courseTitle unit.unitNumber videoIndex vData.title) = true)
    (hext : possibleExtensions.contains (toLowerJs (extname f.name)) = true)
    (hfile : f.stat.isFile = true) (hsize : 0 < f.stat.size) :
    isVideoCompleted fs dp courseUrl unit.unitNumber videoIndex []
      (some ⟨courseTitle, unit.title, vData.title, vData.sectionLabel⟩) = true ∧
    (⟨vData, unit.title, unit.unitNumber, videoIndex⟩ : DownloadTask) ∉
      buildDownloadQueue fs dp courseUrl courseTitle [] allVideos := by
  have hmatch : videoFileMatch
      (mkFileStem courseTitle unit.unitNumber videoIndex vData.title) f = true := by
    simp [videoFileMatch, hstem, hfile, hsize]
    exact Or.inl (List.elem_iff.mp hext)
  have hcheck : (checkVideoFileExists fs dp courseTitle unit.title unit.unitNumber
      videoIndex vData.title vData.sectionLabel).isSome = true := by
    simp only [checkVideoFileExists]
    rw [hdir]
    simp only [Option.isSome_map']
    exact List.find?_isSome.mpr ⟨f, hf, hmatch⟩
  have h1 : isVideoCompleted fs dp courseUrl unit.unitNumber videoIndex []
      (some ⟨courseTitle, unit.title, vData.title, vData.sectionLabel⟩) = true := by
    simp [isVideoCompleted, hcheck]
  refine ⟨h1, fun hmem => ?_⟩
  rw [buildDownloadQueue] at hmem
  obtain ⟨unit', hu', hmem2⟩ := List.mem_flatMap.mp hmem
  obtain ⟨p, hp, hfn⟩ := List.mem_filterMap.mp hmem2
  by_cases hurl : p.2.playbackURL = ""
  · simp [hurl] at hfn
  · by_cases hcomp : isVideoCompleted fs dp courseUrl unit'.unitNumber ((p.1 : Int) + 1)
        [] (some ⟨courseTitle, unit'.title, p.2.title, p.2.sectionLabel⟩) = true
    · simp [hurl, hcomp] at hfn
    · simp only [hurl, hcomp, Bool.false_eq_true, if_false, if_neg,
        Option.some.injEq] at hfn
      have hv : p.2 = vData := congrArg DownloadTask.vData hfn
      have ht : unit'.title = unit.title := congrArg DownloadTask.unitTitle hfn
      have hn : unit'.unitNumber = unit.unitNumber := congrArg DownloadTask.unitNumber hfn
      have hi : (p.1 : Int) + 1 = videoIndex := congrArg DownloadTask.videoIndex hfn
      rw [hv, ht, hn, hi] at hcomp
      exact hcomp h1

/-- Witness for C5: a single-video manifest whose media file is already on
disk yields a completed probe and an empty download queue entry for it. -/
theorem filesystem_fallback_completion_witness :
    isVideoCompleted
      (fun d => if d = ⟨"dl", "C", "S", "U1"⟩ then
        some [⟨"C - U1 - 1_V1.mp4", ⟨true, 7⟩⟩] else none)
      "dl" "https://www.domestika.org/en/courses/12-abc" 1 1 []
      (some ⟨some "C", "U1", "V1", "S"⟩) = true ∧
    (⟨⟨"http://p", "V1", "S"⟩, "U1", 1, 1⟩ : DownloadTask) ∉
      buildDownloadQueue
        (fun d => if d = ⟨"dl", "C", "S", "U1"⟩ then
          some [⟨"C - U1 - 1_V1.mp4", ⟨true, 7⟩⟩] else none)
        "dl" "https://www.domestika.org/en/courses/12-abc" (some "C") []
        [⟨"U1", [⟨"http://p", "V1", "S"⟩], 1⟩] :=
  filesystem_fallback_completion
    (fun d => if d = ⟨"dl", "C", "S", "U1"⟩ then
      some [⟨"C - U1 - 1_V1.mp4", ⟨true, 7⟩⟩] else none)
    "dl" "https://www.domestika.org/en/courses/12-abc" (some "C")
    [⟨"U1", [⟨"http://p", "V1", "S"⟩], 1⟩]
    ⟨"U1", [⟨"http://p", "V1", "S"⟩], 1⟩ ⟨"http://p", "V1", "S"⟩ 1
    [⟨"C - U1 - 1_V1.mp4", ⟨true, 7⟩⟩] ⟨"C - U1 - 1_V1.mp4", ⟨true, 7⟩⟩
    (by decide) (by decide) (by decide) (by decide) (by decide) (by decide)

/-- C10: when the correctly-named media file already exists non-empty,
`downloadVideo` records a `completed` row with retry count 0, adds the
identity to the in-memory completed set and returns true, with no fetch
subprocess and no subtitle post-processing, even for a non-empty subtitle
language list. -/
theorem existing_file_early_exit (env : DlEnv) (st : RunState) (vData : VideoData)
    (courseTitle : Option String) (unitTitle : String) (index : Int)
    (subtitleLangs : Option (List String)) (unitNumber : Int) (cu p : String)
    (hurl : ¬ vData.playbackURL = "")
    (hexist : checkVideoFileExists env.fs env.downloadPath courseTitle unitTitle unitNumber
      index vData.title vData.sectionLabel = some p)
    (hfresh : saveArgsId ⟨cu, courseTitle, unitNumber, unitTitle, index, vData.title,
      "completed", 0, env.timestamp⟩ ∉ st.writtenVideoIds) :
    (downloadVideo env st vData courseTitle unitTitle index subtitleLangs unitNumber
        (some cu) true).result = .ok true ∧
    (downloadVideo env st vData courseTitle unitTitle index subtitleLangs unitNumber
        (some cu) true).state.ledger
      = st.ledger ++ [mkLedgerRow ⟨cu, courseTitle, unitNumber, unitTitle, index,
          vData.title, "completed", 0, env.timestamp⟩] ∧
    (mkLedgerRow ⟨cu, courseTitle, unitNumber, unitTitle, index, vData.title,
      "completed", 0, env.timestamp⟩).status = "completed" ∧
    (mkLedgerRow ⟨cu, courseTitle, unitNumber, unitTitle, index, vData.title,
      "completed", 0, env.timestamp⟩).retryCount = "0" ∧
    getVideoId cu (some unitNumber) (some index) ∈
      (downloadVideo env st vData courseTitle unitTitle index subtitleLangs unitNumber
        (some cu) true).state.completedVideos ∧
    (downloadVideo env st vData courseTitle unitTitle index subtitleLangs unitNumber
      (some cu) true).fetchCalls = 0 ∧
    (downloadVideo env st vData courseTitle unitTitle index subtitleLangs unitNumber
      (some cu) true).postRan = false := by
  rw [downloadVideo_eq_existing env st vData courseTitle unitTitle index subtitleLangs
    unitNumber (some cu) true p hurl hexist]
  have hc : ¬ (st.writtenVideoIds.contains (saveArgsId ⟨cu, courseTitle, unitNumber,
      unitTitle, index, vData.title, "completed", 0, env.timestamp⟩) = true) :=
    fun hh => hfresh (List.elem_iff.mp hh)
  refine ⟨rfl, ?_, rfl, rfl, ?_, rfl, rfl⟩
  · simp [downloadVideoExisting, recordCompleted, saveVideoProgress, hfresh]
  · simp [downloadVideoExisting, recordCompleted]

/-- Witness for C10: a job whose media file is already on disk returns true
with zero fetch subprocess calls and no post-processing, despite a requested
subtitle language. -/
theorem existing_file_early_exit_witness :
    (downloadVideo
        ⟨(fun d => if d = ⟨"dl", "C", "S", "U1"⟩ then
            some [⟨"C - U1 - 1_V1.mp4", ⟨true, 7⟩⟩] else none),
          "dl", (fun _ => false), (fun _ => false), (fun _ => true), (fun _ => true),
          (fun _ => true), false, false, none, "T"⟩
        (freshRunState []) ⟨"http://p", "V1", "S"⟩ (some "C") "U1" 1 (some ["en"]) 1
        (some "https://www.domestika.org/en/courses/12-abc") true).result = .ok true ∧
    (downloadVideo
        ⟨(fun d => if d = ⟨"dl", "C", "S", "U1"⟩ then
            some [⟨"C - U1 - 1_V1.mp4", ⟨true, 7⟩⟩] else none),
          "dl", (fun _ => false), (fun _ => false), (fun _ => true), (fun _ => true),
          (fun _ => true), false, false, none, "T"⟩
        (freshRunState []) ⟨"http://p", "V1", "S"⟩ (some "C") "U1" 1 (some ["en"]) 1
        (some "https://www.domestika.org/en/courses/12-abc") true).fetchCalls = 0 ∧
    (downloadVideo
        ⟨(fun d => if d = ⟨"dl", "C", "S", "U1"⟩ then
            some [⟨"C - U1 - 1_V1.mp4", ⟨true, 7⟩⟩] else none),
          "dl", (fun _ => false), (fun _ => false), (fun _ => true), (fun _ => true),
          (fun _ => true), false, false, none, "T"⟩
        (freshRunState []) ⟨"http://p", "V1", "S"⟩ (some "C") "U1" 1 (some ["en"]) 1
        (some "https://www.domestika.org/en/courses/12-abc") true).postRan = false := by
  have h := existing_file_early_exit
    ⟨(fun d => if d = ⟨"dl", "C", "S", "U1"⟩ then
        some [⟨"C - U1 - 1_V1.mp4", ⟨true, 7⟩⟩] else none),
      "dl", (fun _ => false), (fun _ => false), (fun _ => true), (fun _ => true),
      (fun _ => true), false, false, none, "T"⟩
    (freshRunState []) ⟨"http://p", "V1", "S"⟩ (some "C") "U1" 1 (some ["en"]) 1
    "https://www.domestika.org/en/courses/12-abc"
    ("dl/C/S/U1/" ++ "C - U1 - 1_V1.mp4")
    (by decide) (by decide) (List.not_mem_nil _)
  exact ⟨h.1, h.2.2.2.2.2.1, h.2.2.2.2.2.2⟩

/-- Any row present after a `saveVideoProgress` call was either already in
the ledger or carries the status of that call. -/
theorem ledger_save_cases (st : RunState) (a : SaveArgs) (r : LedgerRow)
    (hr : r ∈ (saveVideoProgress st a).ledger) : r ∈ st.ledger ∨ r.status = a.status := by
  by_cases hc : saveArgsId a ∈ st.writtenVideoIds
  · rw [show saveVideoProgress st a = st by simp [saveVideoProgress, hc]] at hr
    exact Or.inl hr
  · simp only [saveVideoProgress, if_neg (fun hh => hc (List.elem_iff.mp hh)),
      List.mem_append] at hr
    rcases hr with hr | hr
    · exact Or.inl hr
    · right
      rw [List.mem_singleton.mp hr]
      rfl

/-- The directory ensured by `mkdirSync` is present afterwards. -/
theorem ensureDir_isSome (fs : FS) (d : DirKey) : ¬ (ensureDir fs d) d = none := by
  simp [ensureDir]

/-- The subtitle post-processing block never raises: for every oracle
configuration it returns a value as long as the job's target directory is
present (which `downloadVideo` guarantees by creating it). -/
theorem postProcess_ok (env : DlEnv) (fs : FS) (d : DirKey) (fileName : String)
    (langs : List String) (hdir : ¬ fs d = none) :
    ∃ b, postProcessSubtitles env fs d fileName langs = .ok b := by
  unfold postProcessSubtitles
  by_cases hempty : (langs.filter (fun l => env.subFetchOk l && env.subFileFound l)).isEmpty
  · exact ⟨false, by simp [hempty]⟩
  · simp only [hempty, Bool.false_eq_true, if_false]
    by_cases hmp4 : fileInDir fs d (fileName ++ ".mp4")
    · exact ⟨embedSubtitles env fs d (fileName ++ ".mp4")
          (langs.filter (fun l => env.subFetchOk l && env.subFileFound l)),
        by simp [hmp4, waitForFileComplete]⟩
    · cases hfs : fs d with
      | none => exact absurd hfs hdir
      | some files =>
        cases hfind : files.find? (fun f =>
            startsWithJs f.name fileName
              && (endsWithJs f.name ".mp4" || endsWithJs f.name ".m3u8"
                  || endsWithJs f.name ".ts")) with
        | none => exact ⟨false, by simp [hmp4, hfs, hfind]⟩
        | some g =>
          have hg : g ∈ files := List.mem_of_find?_eq_some hfind
          have hin : fileInDir fs d g.name = true := by
            simp only [fileInDir, hfs]
            simp [List.any_eq_true]
            exact ⟨g, hg, rfl⟩
          exact ⟨embedSubtitles env fs d g.name
              (langs.filter (fun l => env.subFetchOk l && env.subFileFound l)),
            by simp [hmp4, hfs, hfind, waitForFileComplete, hin]⟩

/-- C9: once the media fetch has succeeded, no failure in the subtitle
post-processing block (fetch, sidecar search, validation, or mux/embed)
escalates: the job still returns true and records `completed`, and no row is
retroactively marked failed. -/
theorem post_processing_never_escalates (env : DlEnv) (st : RunState) (vData : VideoData)
    (courseTitle : Option String) (unitTitle : String) (index : Int)
    (subtitleLangs : Option (List String)) (unitNumber : Int) (cu : String)
    (hurl : ¬ vData.playbackURL = "")
    (hmiss : checkVideoFileExists env.fs env.downloadPath courseTitle unitTitle unitNumber
      index vData.title vData.sectionLabel = none)
    (hfetch : (retryLoop env.tier1080 env.tierBest
      (maxRetryAttemptsNat env.maxRetryEnv)).ok = true) :
    (downloadVideo env st vData courseTitle unitTitle index subtitleLangs unitNumber
        (some cu) true).result = .ok true ∧
    (∀ r ∈ (downloadVideo env st vData courseTitle unitTitle index subtitleLangs
        unitNumber (some cu) true).state.ledger,
      r ∈ st.ledger ∨ r.status = "completed") ∧
    getVideoId cu (some unitNumber) (some index) ∈
      (downloadVideo env st vData courseTitle unitTitle index subtitleLangs unitNumber
        (some cu) true).state.completedVideos := by
  rw [downloadVideo_eq_fetch env st vData courseTitle unitTitle index subtitleLangs
    unitNumber (some cu) true hurl hmiss]
  have hledger : ∀ (rc : Nat) (r : LedgerRow),
      r ∈ (recordCompleted st cu courseTitle unitNumber unitTitle index vData.title
        (rc : Int) env.timestamp).ledger →
      r ∈ st.ledger ∨ r.status = "completed" := by
    intro rc r hr
    exact ledger_save_cases st
      ⟨cu, courseTitle, unitNumber, unitTitle, index, vData.title, "completed",
        (rc : Int), env.timestamp⟩ r (by simpa [recordCompleted] using hr)
  have hcv : ∀ (rc : Nat), getVideoId cu (some unitNumber) (some index) ∈
      (recordCompleted st cu courseTitle unitNumber unitTitle index vData.title
        (rc : Int) env.timestamp).completedVideos := by
    intro rc
    simp [recordCompleted]
  simp only [downloadVideoFetch, hfetch, if_true]
  rcases subtitleLangs with _ | langs
  · exact ⟨rfl, hledger _, hcv _⟩
  · by_cases he : langs.isEmpty
    · simp only [he, if_true]
      exact ⟨trivial, hledger _, hcv _⟩
    · obtain ⟨b, hb⟩ := postProcess_ok env
        (ensureDir env.fs (mkVideoDirKey env.downloadPath courseTitle vData.sectionLabel
          unitTitle))
        (mkVideoDirKey env.downloadPath courseTitle vData.sectionLabel unitTitle)
        (mkFileStem courseTitle unitNumber index vData.title) langs
        (ensureDir_isSome env.fs _)
      simp only [he, Bool.false_eq_true, if_false, hb]
      exact ⟨trivial, hledger _, hcv _⟩

/-- Witness for C9: every subtitle fetch fails, no sidecar is found and both
ffmpeg commands fail, yet the job returns true and the recorded row says
`completed`. -/
theorem post_processing_never_escalates_witness :
    (downloadVideo
        ⟨(fun _ => none), "dl", (fun _ => true), (fun _ => false), (fun _ => false),
          (fun _ => false), (fun _ => false), false, false, none, "T"⟩
        (freshRunState []) ⟨"http://p", "V1", "S"⟩ (some "C") "U1" 1 (some ["en", "es"]) 1
        (some "https://www.domestika.org/en/courses/12-abc") true).result = .ok true ∧
    getVideoId "https://www.domestika.org/en/courses/12-abc" (some 1) (some 1) ∈
      (downloadVideo
        ⟨(fun _ => none), "dl", (fun _ => true), (fun _ => false), (fun _ => false),
          (fun _ => false), (fun _ => false), false, false, none, "T"⟩
        (freshRunState []) ⟨"http://p", "V1", "S"⟩ (some "C") "U1" 1 (some ["en", "es"]) 1
        (some "https://www.domestika.org/en/courses/12-abc") true).state.completedVideos := by
  have h := post_processing_never_escalates
    ⟨(fun _ => none), "dl", (fun _ => true), (fun _ => false), (fun _ => false),
      (fun _ => false), (fun _ => false), false, false, none, "T"⟩
    (freshRunState []) ⟨"http://p", "V1", "S"⟩ (some "C") "U1" 1 (some ["en", "es"]) 1
    "https://www.domestika.org/en/courses/12-abc"
    (by decide) rfl (by decide)
  exact ⟨h.1, h.2.2⟩

/-! ## Retry-exhaustion lemmas -/

theorem retryLoopGo_length (t1 t2 : Nat → Bool) (M : Nat) :
    ∀ (fuel rc : Nat), (retryLoopGo t1 t2 M rc fuel).attempts.length ≤ fuel := by
  intro fuel
  induction fuel with
  | zero => intro rc; simp [retryLoopGo]
  | succ f ih =>
    intro rc
    by_cases h1 : t1 rc
    · simp [retryLoopGo, h1]
    · by_cases h2 : t2 rc
      · simp [retryLoopGo, h1, h2]
      · by_cases h3 : rc < M
        · have := ih (rc + 1)
          simp only [retryLoopGo, h1, h2, h3, Bool.false_eq_true, if_false, if_true,
            if_pos, List.length_cons]
          omega
        · simp [retryLoopGo, h1, h2, h3]

theorem retryLoopGo_shape (t1 t2 : Nat → Bool) (M : Nat) :
    ∀ (fuel rc : Nat), ∀ a ∈ (retryLoopGo t1 t2 M rc fuel).attempts,
      a.triedBest = !a.ok1080 := by
  intro fuel
  induction fuel with
  | zero => intro rc a ha; simp [retryLoopGo] at ha
  | succ f ih =>
    intro rc a ha
    by_cases h1 : t1 rc
    · simp [retryLoopGo, h1] at ha
      rw [ha]
      rfl
    · by_cases h2 : t2 rc
      · simp [retryLoopGo, h1, h2] at ha
        rw [ha]
        rfl
      · by_cases h3 : rc < M
        · simp only [retryLoopGo, h1, h2, h3, Bool.false_eq_true, if_false, if_true,
            if_pos, List.mem_cons] at ha
          rcases ha with ha | ha
          · rw [ha]
            rfl
          · exact ih (rc + 1) a ha
        · simp [retryLoopGo, h1, h2, h3] at ha
          rw [ha]
          rfl

theorem retryLoopGo_allfail (t1 t2 : Nat → Bool) (M : Nat)
    (hall : ∀ k, t1 k = false ∧ t2 k = false) :
    ∀ (fuel rc : Nat), rc + fuel = M + 1 → 1 ≤ fuel →
      (retryLoopGo t1 t2 M rc fuel).ok = false ∧
      (retryLoopGo t1 t2 M rc fuel).retryCount = M ∧
      (retryLoopGo t1 t2 M rc fuel).attempts.length = fuel := by
  intro fuel
  induction fuel with
  | zero => intro rc hsum h1; omega
  | succ f ih =>
    intro rc hsum _
    have ht1 := (hall rc).1
    have ht2 := (hall rc).2
    by_cases hf : f = 0
    · subst hf
      have hrc : rc = M := by omega
      subst hrc
      simp [retryLoopGo, ht1, ht2]
    · have h3 : rc < M := by omega
      have hres := ih (rc + 1) (by omega) (by omega)
      simp only [retryLoopGo, ht1, ht2, h3, Bool.false_eq_true, if_false, if_true,
        if_pos, List.length_cons]
      exact ⟨hres.1, hres.2.1, by rw [hres.2.2]⟩

/-- C4: a job makes at most M + 1 raw attempts (M the configured maximum,
default 5, always at least 1), each raw attempt trying the best-available
fallback exactly when the preferred 1080p tier failed; on exhaustion a
`failed` row carrying the final retry count M is appended before the error
propagates. -/
theorem retry_bound_and_failure_record (env : DlEnv) (st : RunState) (vData : VideoData)
    (courseTitle : Option String) (unitTitle : String) (index : Int)
    (subtitleLangs : Option (List String)) (unitNumber : Int)
    (courseUrl : Option String) (useCompletedSet : Bool)
    (hurl : ¬ vData.playbackURL = "")
    (hmiss : checkVideoFileExists env.fs env.downloadPath courseTitle unitTitle unitNumber
      index vData.title vData.sectionLabel = none) :
    getMaxRetryAttempts none = 5 ∧
    1 ≤ getMaxRetryAttempts env.maxRetryEnv ∧
    (downloadVideo env st vData courseTitle unitTitle index subtitleLangs unitNumber
      courseUrl useCompletedSet).rawAttempts.length
      ≤ maxRetryAttemptsNat env.maxRetryEnv + 1 ∧
    (∀ a ∈ (downloadVideo env st vData courseTitle unitTitle index subtitleLangs
        unitNumber courseUrl useCompletedSet).rawAttempts,
      a.triedBest = !a.ok1080) ∧
    ((∀ k, env.tier1080 k = false ∧ env.tierBest k = false) →
      ∀ cu, courseUrl = some cu →
      saveArgsId ⟨cu, courseTitle, unitNumber, unitTitle, index, vData.title, "failed",
        (maxRetryAttemptsNat env.maxRetryEnv : Int), env.timestamp⟩ ∉ st.writtenVideoIds →
      (downloadVideo env st vData courseTitle unitTitle index subtitleLangs unitNumber
        courseUrl useCompletedSet).rawAttempts.length
        = maxRetryAttemptsNat env.maxRetryEnv + 1 ∧
      (∃ e, (downloadVideo env st vData courseTitle unitTitle index subtitleLangs
        unitNumber courseUrl useCompletedSet).result = .error e) ∧
      (downloadVideo env st vData courseTitle unitTitle index subtitleLangs unitNumber
        courseUrl useCompletedSet).state.ledger
        = st.ledger ++ [mkLedgerRow ⟨cu, courseTitle, unitNumber, unitTitle, index,
            vData.title, "failed", (maxRetryAttemptsNat env.maxRetryEnv : Int),
            env.timestamp⟩] ∧
      (mkLedgerRow ⟨cu, courseTitle, unitNumber, unitTitle, index, vData.title, "failed",
        (maxRetryAttemptsNat env.maxRetryEnv : Int), env.timestamp⟩).status = "failed" ∧
      (mkLedgerRow ⟨cu, courseTitle, unitNumber, unitTitle, index, vData.title, "failed",
        (maxRetryAttemptsNat env.maxRetryEnv : Int), env.timestamp⟩).retryCount
        = toString (maxRetryAttemptsNat env.maxRetryEnv : Int)) := by
  rw [downloadVideo_eq_fetch env st vData courseTitle unitTitle index subtitleLangs
    unitNumber courseUrl useCompletedSet hurl hmiss]
  refine ⟨rfl, ?_, ?_, ?_, ?_⟩
  · rcases henv : env.maxRetryEnv with _ | v
    · simp [getMaxRetryAttempts]
    · by_cases hv : v < 1
      · simp [getMaxRetryAttempts, hv]
      · simp only [getMaxRetryAttempts, hv, if_false]
        omega
  · rw [downloadVideoFetch_rawAttempts]
    exact retryLoopGo_length env.tier1080 env.tierBest (maxRetryAttemptsNat env.maxRetryEnv)
      (maxRetryAttemptsNat env.maxRetryEnv + 1) 0
  · rw [downloadVideoFetch_rawAttempts]
    exact retryLoopGo_shape env.tier1080 env.tierBest (maxRetryAttemptsNat env.maxRetryEnv)
      (maxRetryAttemptsNat env.maxRetryEnv + 1) 0
  · intro hall cu hcu hfresh
    subst hcu
    have hres := retryLoopGo_allfail env.tier1080 env.tierBest
      (maxRetryAttemptsNat env.maxRetryEnv) hall (maxRetryAttemptsNat env.maxRetryEnv + 1)
      0 (by omega) (by omega)
    refine ⟨?_, ?_, ?_, rfl, rfl⟩
    · rw [downloadVideoFetch_rawAttempts]
      exact hres.2.2
    · refine ⟨"Failed to download video after "
        ++ toString (retryLoop env.tier1080 env.tierBest
            (maxRetryAttemptsNat env.maxRetryEnv)).retryCount ++ " attempts", ?_⟩
      simp only [downloadVideoFetch, retryLoop] at *
      rw [hres.1]
      simp
    · simp only [downloadVideoFetch, retryLoop] at *
      rw [hres.1]
      simp only [Bool.false_eq_true, if_false]
      rw [hres.2.1]
      simp [saveVideoProgress, hfresh]

/-- Witness for C4 as exercised at a concrete failing job: with the default
maximum of 5 retries and both tiers always failing, 6 raw attempts are made
and the appended row is `failed` with retry count 5. -/
theorem retry_bound_and_failure_record_witness :
    (downloadVideo
        ⟨(fun _ => none), "dl", (fun _ => false), (fun _ => false), (fun _ => true),
          (fun _ => true), (fun _ => true), false, false, none, "T"⟩
        (freshRunState []) ⟨"http://p", "V1", "S"⟩ (some "C") "U1" 1 none 1
        (some "https://www.domestika.org/en/courses/12-abc") true).rawAttempts.length
      = maxRetryAttemptsNat none + 1 ∧
    (downloadVideo
        ⟨(fun _ => none), "dl", (fun _ => false), (fun _ => false), (fun _ => true),
          (fun _ => true), (fun _ => true), false, false, none, "T"⟩
        (freshRunState []) ⟨"http://p", "V1", "S"⟩ (some "C") "U1" 1 none 1
        (some "https://www.domestika.org/en/courses/12-abc") true).state.ledger
      = [] ++ [mkLedgerRow ⟨"https://www.domestika.org/en/courses/12-abc", some "C", 1,
          "U1", 1, "V1", "failed", (maxRetryAttemptsNat none : Int), "T"⟩] := by
  have h := (retry_bound_and_failure_record
    ⟨(fun _ => none), "dl", (fun _ => false), (fun _ => false), (fun _ => true),
      (fun _ => true), (fun _ => true), false, false, none, "T"⟩
    (freshRunState []) ⟨"http://p", "V1", "S"⟩ (some "C") "U1" 1 none 1
    (some "https://www.domestika.org/en/courses/12-abc") true
    (by decide) rfl).2.2.2.2
    (fun _ => ⟨rfl, rfl⟩) "https://www.domestika.org/en/courses/12-abc" rfl
    (List.not_mem_nil _)
  exact ⟨h.1, h.2.2.1⟩

/-! ## Scheduler lemmas -/

/-- Invariant of every reachable scheduler state: the in-flight set never
exceeds the ceiling, and jobs are started in queue order (the start history
followed by the still-pending jobs is the original queue). -/
theorem schedReachable_inv (n : Int) (queue : List Nat) (s : SchedState)
    (hn : 0 ≤ n) (h : SchedReachable n queue s) :
    (s.inflight.length : Int) ≤ n ∧ queue = s.started ++ s.pending := by
  induction h with
  | refl => simpa [schedInit] using hn
  | tail _ hstep ih =>
    rcases hstep with @⟨j, rest, inflight, started, finished, hslot⟩
      | @⟨pending, inflight, started, finished, j, hmem⟩
    · refine ⟨by simpa using hslot, ?_⟩
      rw [ih.2]
      simp
    · refine ⟨?_, ih.2⟩
      have : (inflight.erase j).length ≤ inflight.length := by
        rw [List.length_erase_of_mem hmem]
        omega
      have h2 := ih.1
      simp only at h2 ⊢
      omega

/-- C1: for every queue and ceiling configuration (value at least 1, default
2), no reachable scheduler state holds more than N jobs in flight; when the
in-flight set is full the only enabled transitions are completions of some
in-flight job (pending and start history unchanged, one slot freed), so
admission blocks until any in-flight job finishes; and jobs are started in
queue order. -/
theorem scheduler_concurrency_ceiling (envN : Option Int) (queue : List Nat)
    (s : SchedState) (h : SchedReachable (getMaxConcurrentDownloads envN) queue s) :
    getMaxConcurrentDownloads none = 2 ∧
    1 ≤ getMaxConcurrentDownloads envN ∧
    (s.inflight.length : Int) ≤ getMaxConcurrentDownloads envN ∧
    queue = s.started ++ s.pending ∧
    (getMaxConcurrentDownloads envN ≤ (s.inflight.length : Int) →
      ∀ s', SchedStep (getMaxConcurrentDownloads envN) s s' →
        s'.pending = s.pending ∧ s'.started = s.started ∧
          s'.inflight.length + 1 = s.inflight.length) ∧
    (∀ j ∈ s.inflight, SchedStep (getMaxConcurrentDownloads envN) s
      ⟨s.pending, s.inflight.erase j, s.started, s.finished ++ [j]⟩) := by
  have hone : 1 ≤ getMaxConcurrentDownloads envN := by
    rcases envN with _ | v
    · simp [getMaxConcurrentDownloads]
    · by_cases hv : v < 1
      · simp [getMaxConcurrentDownloads, hv]
      · simp only [getMaxConcurrentDownloads, hv, if_false]
        omega
  have hinv := schedReachable_inv (getMaxConcurrentDownloads envN) queue s
    (by omega) h
  refine ⟨rfl, hone, hinv.1, hinv.2, ?_, ?_⟩
  · intro hfull s' hstep
    rcases hstep with @⟨j, rest, inflight, started, finished, hslot⟩
      | @⟨pending, inflight, started, finished, j, hmem⟩
    · exfalso
      simp only at hfull
      omega
    · refine ⟨rfl, rfl, ?_⟩
      simp only
      rw [List.length_erase_of_mem hmem]
      have : 0 < inflight.length := List.length_pos.mpr
        (fun he => by rw [he] at hmem; exact List.not_mem_nil j hmem)
      omega
  · intro j hj
    cases s with
    | mk pending inflight started finished => exact SchedStep.finish _ _ _ _ j hj

/-- Witness for C1: with the default ceiling 2 and queue `[0, 1, 2]`, the
state reached after starting the first two jobs satisfies the ceiling bound
and the queue-order invariant. -/
theorem scheduler_concurrency_ceiling_witness :
    ((⟨[2], [1, 0], [0, 1], []⟩ : SchedState).inflight.length : Int)
      ≤ getMaxConcurrentDownloads none ∧
    [0, 1, 2] = (⟨[2], [1, 0], [0, 1], []⟩ : SchedState).started
      ++ (⟨[2], [1, 0], [0, 1], []⟩ : SchedState).pending := by
  have h1 : SchedStep (getMaxConcurrentDownloads none) (schedInit [0, 1, 2])
      ⟨[1, 2], [0], [0], []⟩ := by
    have := SchedStep.start (n := getMaxConcurrentDownloads none) 0 [1, 2] [] [] []
      (by decide)
    simpa [schedInit] using this
  have h2 : SchedStep (getMaxConcurrentDownloads none) (⟨[1, 2], [0], [0], []⟩ : SchedState)
      ⟨[2], [1, 0], [0, 1], []⟩ := by
    have := SchedStep.start (n := getMaxConcurrentDownloads none) 1 [2] [0] [0] []
      (by decide)
    simpa using this
  have hr : SchedReachable (getMaxConcurrentDownloads none) [0, 1, 2]
      ⟨[2], [1, 0], [0, 1], []⟩ :=
    Relation.ReflTransGen.tail (Relation.ReflTransGen.tail Relation.ReflTransGen.refl h1) h2
  have h := scheduler_concurrency_ceiling none [0, 1, 2] ⟨[2], [1, 0], [0, 1], []⟩ hr
  exact ⟨h.2.2.1, h.2.2.2.1⟩

end Domestika
